import Mathlib

/-!
Verification development for the observability subsystem of the repository
(`saleor/webhook/observability/payloads.py` and
`saleor/webhook/observability/utils.py`).

Texts are modelled as `List Char` (Python strings are sequences of Unicode
code points).  Machine integers are modelled as `Int`/`Nat`; Python's floor
division `//` is `Int.fdiv`.  Fallible code returns `Option`/`Except`.
-/

namespace Observability

/-- Model of `payloads.JsonTruncText`: a truncated text together with the
`truncated` flag and the extra bytes contributed by JSON escaping.
The Python constructor clamps `added_bytes` with `max(0, _)`; we use `Nat`. -/
structure JsonTruncText where
  text : List Char
  truncated : Bool
  added_bytes : Nat
deriving Repr, DecidableEq

/-- `byte_size` property of `JsonTruncText`:
`len(self.text) + self._added_bytes`. -/
def JsonTruncText.byte_size (t : JsonTruncText) : Nat :=
  t.text.length + t.added_bytes

/-- A character matched by `json.encoder.ESCAPE_ASCII`
(regex `([\\"]|[^\ -~])`): backslash, double quote, or any code point
outside the printable-ASCII range 0x20..0x7e. -/
def needs_escape (c : Char) : Bool :=
  c = '\\' || c = '"' || decide (c.toNat < 0x20) || decide (0x7e < c.toNat)

/-- Model of `JsonTruncText.json_char_len`: length of the JSON escape for a
character.  `ESCAPE_DCT` gives the two-character short escapes for
backslash, quote, backspace, form feed, newline, carriage return and tab,
and a six-character `\uXXXX` escape for the remaining control characters;
for characters not in `ESCAPE_DCT` the length is 6 below 0x10000 and 12
(a surrogate pair) otherwise. -/
def json_char_len (c : Char) : Nat :=
  if c = '\\' || c = '"' || c = Char.ofNat 0x08 || c = Char.ofNat 0x0c ||
      c = '\n' || c = '\r' || c = '\t' then 2
  else if c.toNat < 0x20 then 6
  else if c.toNat < 0x10000 then 6
  else 12

/-- The `for match in ESCAPE_ASCII.finditer(s)` loop of
`JsonTruncText.truncate`.  `pre` is the already scanned prefix of the
sliced string (so the match start position is `pre.length`), `added` the
accumulated added bytes, and the last argument the characters still to
scan.  Characters that do not need escaping are skipped by `finditer`,
which is modelled by walking over them without touching `added`. -/
def truncGo (limit s_init_len : Nat) (pre : List Char) (added : Nat) :
    List Char → JsonTruncText
  | [] => ⟨pre, decide (pre.length < s_init_len), added⟩
  | c :: rest =>
    if needs_escape c then
      let markup := json_char_len c - 1
      if pre.length + 1 + (added + markup) > limit then
        ⟨pre, true, added⟩
      else if pre.length + 1 + (added + markup) = limit then
        ⟨pre ++ [c], decide (pre.length + 1 < s_init_len), added + markup⟩
      else
        truncGo limit s_init_len (pre ++ [c]) (added + markup) rest
    else
      truncGo limit s_init_len (pre ++ [c]) added rest

/-- Model of `JsonTruncText.truncate(s, limit)`.  The limit is clamped with
`max(limit, 0)` (that is `Int.toNat`), the string is sliced to the first
`limit` characters, and the escape scan runs over the slice. -/
def truncate (s : List Char) (limit : Int) : JsonTruncText :=
  truncGo limit.toNat s.length [] 0 (s.take limit.toNat)

/-- Total escape overhead of a list of characters: the sum of
`json_char_len c - 1` over the characters needing escape. -/
def added_of : List Char → Nat
  | [] => 0
  | c :: rest => (if needs_escape c then json_char_len c - 1 else 0) + added_of rest

/-- Replay check: scanning `cs` from position `pos` with accumulated added
bytes `added`, every escape check of the truncation loop passes — strictly
below `limit`, except possibly an exact hit on the final character. -/
def scanOK (limit : Nat) : Nat → Nat → List Char → Bool
  | _, _, [] => true
  | pos, added, c :: rest =>
    if needs_escape c then
      let a := added + (json_char_len c - 1)
      if pos + 1 + a > limit then false
      else if pos + 1 + a = limit then rest.isEmpty
      else scanOK limit (pos + 1) a rest
    else scanOK limit (pos + 1) added rest

/-! ## JSON document model

`_json_serialize` is `json.dumps(obj, ensure_ascii=True, cls=CustomJsonEncoder)`
with the default separators `", "` and `": "`.  We model the JSON values the
payload builders produce and the exact length of their compact serialization.
Atoms rendered by external encoders (floats, ISO datetimes, uuid and
global-id strings) appear as pre-rendered character data in the model. -/

mutual
inductive JValue where
  | null
  | bool (b : Bool)
  | int (n : Int)
  | raw (s : List Char)
  | str (s : List Char)
  | arr (es : JArr)
  | obj (fs : JObj)
inductive JArr where
  | nil
  | cons (hd : JValue) (tl : JArr)
inductive JObj where
  | nil
  | cons (k : List Char) (v : JValue) (tl : JObj)
end

/-- Build a `JObj` from a list of fields (in insertion order, as Python
dicts preserve it). -/
def jObjOf : List (List Char × JValue) → JObj
  | [] => .nil
  | (k, v) :: rest => .cons k v (jObjOf rest)

/-- Encoded length of one character inside a JSON string under
`ensure_ascii=True`: printable ASCII other than quote and backslash is one
byte, everything else costs its escape sequence. -/
def enc_char_len (c : Char) : Nat :=
  if needs_escape c then json_char_len c else 1

/-- Length of a JSON string literal (quotes plus escaped content). -/
def jStrLen (s : List Char) : Nat :=
  2 + (s.map enc_char_len).sum

/-- Length of `str(n)` for a Python int, as emitted by `json.dumps`. -/
def intRenderLen (n : Int) : Nat :=
  if n < 0 then 1 + (Nat.repr n.natAbs).length else (Nat.repr n.natAbs).length

mutual
def jLen : JValue → Nat
  | .null => 4
  | .bool true => 4
  | .bool false => 5
  | .int n => intRenderLen n
  | .raw s => s.length
  | .str s => jStrLen s
  | .arr .nil => 2
  | .arr (.cons e es) => 2 + jLen e + jArrLen es
  | .obj .nil => 2
  | .obj (.cons k v fs) => 2 + jStrLen k + 2 + jLen v + jObjLen fs
def jArrLen : JArr → Nat
  | .nil => 0
  | .cons e es => 2 + jLen e + jArrLen es
def jObjLen : JObj → Nat
  | .nil => 0
  | .cons k v fs => 2 + jStrLen k + 2 + jLen v + jObjLen fs
end

/-- Field lookup in a JSON object (first match, like a Python dict key). -/
def jObjGet (key : List Char) : JObj → Option JValue
  | .nil => none
  | .cons k v rest => if k = key then some v else jObjGet key rest

/-- Field lookup on a JSON value: objects only. -/
def jGet (key : List Char) : JValue → Option JValue
  | .obj fs => jObjGet key fs
  | _ => none

/-! ## Camel-casing (`payload_to_camel_case` and graphene's `to_camel_case`) -/

/-- Python `str.split("_")`. -/
def splitUnderscore : List Char → List (List Char)
  | [] => [[]]
  | c :: rest =>
    let groups := splitUnderscore rest
    if c = '_' then [] :: groups
    else
      match groups with
      | [] => [[c]]
      | g :: gs => (c :: g) :: gs

/-- Python `str.capitalize`: first character upper-cased, the rest
lower-cased (ASCII suffices for the payload keys). -/
def pyCapitalize : List Char → List Char
  | [] => []
  | c :: rest => c.toUpper :: rest.map Char.toLower

/-- Model of graphene's `to_camel_case`: split on underscores, keep the
first component, capitalize the non-empty remaining components (an empty
component renders as a literal underscore). -/
def to_camel_case (s : List Char) : List Char :=
  match splitUnderscore s with
  | [] => []
  | first :: rest =>
    first ++ (rest.map (fun x => if x = [] then ['_'] else pyCapitalize x)).flatten

-- Model of `payload_to_camel_case`: rename every mapping key with
-- `to_camel_case`, recursing into nested mappings and lists.
mutual
def toCamelV : JValue → JValue
  | .obj fs => .obj (toCamelObj fs)
  | .arr es => .arr (toCamelArr es)
  | v => v
def toCamelArr : JArr → JArr
  | .nil => .nil
  | .cons e es => .cons (toCamelV e) (toCamelArr es)
def toCamelObj : JObj → JObj
  | .nil => .nil
  | .cons k v rest => .cons (to_camel_case k) (toCamelV v) (toCamelObj rest)
end

/-! ## GraphQL operation payloads -/

/-- Model of `utils.GraphQLOperationResponse` as the payload serializer
consumes it.  External collaborators are absorbed into the fields:
`query` is the `document_string` of the `GraphQLDocument`;
`operation_ast` models the `.operation` of
`get_operation_ast(document_ast, name)` (graphql library, `none` when no
definition is found); `result` models
`_json_serialize(result, pretty=True)` after
`anonymize_gql_operation_response` (obfuscation module, outside the core)
for a truthy result dict, `none` when the result is `None` or empty
(Python falsy). -/
structure GraphQLOperationResponse where
  name : Option (List Char)
  query : Option (List Char)
  operation_ast : Option (List Char)
  result : Option (List Char)
  result_invalid : Bool
deriving Repr, DecidableEq

/-- Model of the `GraphQLOperationPayload` TypedDict. -/
structure GraphQLOperationPayload where
  name : Option JsonTruncText
  operation_type : Option (List Char)
  query : Option JsonTruncText
  result : Option JsonTruncText
  result_invalid : Bool
deriving Repr, DecidableEq

/-- `CustomJsonEncoder` renders a `JsonTruncText` as
a two-field object holding the text and the flag. -/
def jTrunc (t : JsonTruncText) : JValue :=
  .obj (jObjOf [("text".toList, .str t.text), ("truncated".toList, .bool t.truncated)])

def jOptTrunc : Option JsonTruncText → JValue
  | none => .null
  | some t => jTrunc t

def jOptStr : Option (List Char) → JValue
  | none => .null
  | some s => .str s

def jOptInt : Option Int → JValue
  | none => .null
  | some n => .int n

/-- Serialization (in dict insertion order) of a `GraphQLOperationPayload`. -/
def renderGqlOperation (p : GraphQLOperationPayload) : JValue :=
  .obj (jObjOf [
    ("name".toList, jOptTrunc p.name),
    ("operation_type".toList, jOptStr p.operation_type),
    ("query".toList, jOptTrunc p.query),
    ("result".toList, jOptTrunc p.result),
    ("result_invalid".toList, .bool p.result_invalid)])

/-- `TRUNC_PLACEHOLDER = JsonTruncText(truncated=False)`. -/
def TRUNC_PLACEHOLDER : JsonTruncText := ⟨[], false, 0⟩

/-- `GQL_OPERATION_PLACEHOLDER`: the "empty" operation record used to price
one sub-operation. -/
def GQL_OPERATION_PLACEHOLDER : GraphQLOperationPayload :=
  ⟨some TRUNC_PLACEHOLDER, some "subscription".toList, some TRUNC_PLACEHOLDER,
    some TRUNC_PLACEHOLDER, false⟩

/-- `GQL_OPERATION_PLACEHOLDER_SIZE = len(_json_serialize(GQL_OPERATION_PLACEHOLDER))`. -/
def GQL_OPERATION_PLACEHOLDER_SIZE : Nat :=
  jLen (renderGqlOperation GQL_OPERATION_PLACEHOLDER)

/-- The `if operation.name:` block: a truthy (non-empty) name is truncated
to a third of the budget and its actual `byte_size` is subtracted. -/
def sgorNameStep (name : Option (List Char)) (bl : Int) :
    Option JsonTruncText × Int :=
  match name with
  | some nm =>
    if nm.isEmpty then (none, bl)
    else
      let t := truncate nm (Int.fdiv bl 3)
      (some t, bl - (t.byte_size : Int))
  | none => (none, bl)

/-- The `if operation.query:` block: the document string is truncated to
half the budget and the operation type is read off the parsed AST. -/
def sgorQueryStep (query : Option (List Char)) (ast : Option (List Char))
    (bl : Int) : Option JsonTruncText × Option (List Char) × Int :=
  match query with
  | some q =>
    let t := truncate q (Int.fdiv bl 2)
    (some t, ast, bl - (t.byte_size : Int))
  | none => (none, none, bl)

/-- The `if operation.result:` block: the pretty-serialized result is
truncated to the whole remaining budget. -/
def sgorResultStep (result : Option (List Char)) (bl : Int) :
    Option JsonTruncText × Int :=
  match result with
  | some r =>
    let t := truncate r bl
    (some t, bl - (t.byte_size : Int))
  | none => (none, bl)

/-- Model of `serialize_gql_operation_result(operation, bytes_limit)`:
subtract the placeholder cost (raising — `none` — if that goes negative),
then run the three field steps in order, each subtracting its actual
`byte_size` before the next is sized; returns the payload and
`max(0, bytes_limit)`.  Python `//` on a possibly negative budget is floor
division, `Int.fdiv`. -/
def serialize_gql_operation_result (op : GraphQLOperationResponse)
    (bytes_limit : Int) : Option (GraphQLOperationPayload × Int) :=
  let bl0 := bytes_limit - (GQL_OPERATION_PLACEHOLDER_SIZE : Int)
  if bl0 < 0 then none
  else
    let ns := sgorNameStep op.name bl0
    let qs := sgorQueryStep op.query op.operation_ast ns.2
    let rs := sgorResultStep op.result qs.2.2
    some (⟨ns.1, qs.2.1, qs.1, rs.1, op.result_invalid⟩, max 0 rs.2)

/-- The loop of `serialize_gql_operation_results`: the operation at the
head of a remaining list of length `k + 1` receives
`bytes_limit // (k + 1)` (the Python loop divides by
`len(operations) - i`, the number of operations not yet processed), and
the unconsumed part of the slice is returned to the pool. -/
def sgorGo : List GraphQLOperationResponse → Int →
    Option (List GraphQLOperationPayload)
  | [], _ => some []
  | op :: rest, bytes_limit =>
    let payload_limit := Int.fdiv bytes_limit ((rest.length : Int) + 1)
    match serialize_gql_operation_result op payload_limit with
    | none => none
    | some (p, left_bytes) =>
      match sgorGo rest (bytes_limit - (payload_limit - left_bytes)) with
      | none => none
      | some ps => some (p :: ps)

/-- Model of `serialize_gql_operation_results(operations, bytes_limit)`:
fail upfront unless the budget covers one placeholder per operation, then
run the left-to-right division loop. -/
def serialize_gql_operation_results (ops : List GraphQLOperationResponse)
    (bytes_limit : Int) : Option (List GraphQLOperationPayload) :=
  if bytes_limit - (ops.length : Int) * (GQL_OPERATION_PLACEHOLDER_SIZE : Int) < 0
  then none
  else sgorGo ops bytes_limit

/-- Modelled from the spec (§4.2 step 4), for comparison with the code:
"process operations left to right; the i-th of the remaining `(count - i)`
operations receives `remaining // (count - i)` bytes; any unused portion
after that operation is serialized is carried forward into `remaining`". -/
def spec_sub_op_go (count : Nat) :
    Nat → List GraphQLOperationResponse → Int →
      Option (List GraphQLOperationPayload)
  | _, [], _ => some []
  | i, op :: rest, remaining =>
    let alloc := Int.fdiv remaining ((count - i : Nat) : Int)
    match serialize_gql_operation_result op alloc with
    | none => none
    | some (p, unused) =>
      match spec_sub_op_go count (i + 1) rest (remaining - alloc + unused) with
      | none => none
      | some ps => some (p :: ps)

/-- Modelled from the spec (§4.2 step 4): "If
`remaining < count * placeholderCost`, fail.  Otherwise ..." -/
def spec_sub_op_budget (ops : List GraphQLOperationResponse)
    (remaining : Int) : Option (List GraphQLOperationPayload) :=
  if remaining < (ops.length : Int) * (GQL_OPERATION_PLACEHOLDER_SIZE : Int)
  then none
  else spec_sub_op_go ops.length 0 ops remaining

/-! ## API-call payload -/

/-- The app reference attached to a request (`id` is the rendering of
`graphene.Node.to_global_id("App", app.id)`, an external encoding). -/
structure AppModel where
  gid : List Char
  name : List Char
deriving Repr, DecidableEq

/-- Model of the request data the payload builder reads.  Externally
produced values are carried as fields: `request_id` is `str(uuid.uuid4())`
(random), `url` is `build_absolute_uri`, `time_render` is the decimal
rendering of the float timestamp, `masked_headers` is
`hide_sensitive_headers(dict(request.headers))` (obfuscation module), and
`content_length` is `int(request.headers.get("Content-Length") or 0)`. -/
structure HttpRequestModel where
  request_id : List Char
  method : List Char
  url : List Char
  time_render : List Char
  masked_headers : List (List Char × List Char)
  content_length : Int
  app : Option AppModel
deriving Repr, DecidableEq

/-- Model of the response data: masked headers, status code and
`len(response.content)`. -/
structure HttpResponseModel where
  masked_headers : List (List Char × List Char)
  status_code : Option Int
  content_length : Nat
deriving Repr, DecidableEq

def jHeaders (hs : List (List Char × List Char)) : JValue :=
  .obj (jObjOf (hs.map fun kv => (kv.1, JValue.str kv.2)))

def renderGqlOperations : List GraphQLOperationPayload → JArr
  | [] => .nil
  | p :: ps => .cons (renderGqlOperation p) (renderGqlOperations ps)

/-- The `ApiCallPayload` document (snake-case keys, dict insertion order),
parameterized by the operation payload list that fills
`gql_operations.operations`; `gql_operations.count` is always the number
of collected operation responses. -/
def apiCallJ (req : HttpRequestModel) (resp : HttpResponseModel)
    (op_count : Nat) (payloads : List GraphQLOperationPayload) : JValue :=
  .obj (jObjOf [
    ("event_type".toList, .str "observability_api_call".toList),
    ("request".toList, .obj (jObjOf [
      ("id".toList, .str req.request_id),
      ("method".toList, .str req.method),
      ("url".toList, .str req.url),
      ("time".toList, .raw req.time_render),
      ("headers".toList, jHeaders req.masked_headers),
      ("content_length".toList, .int req.content_length)])),
    ("response".toList, .obj (jObjOf [
      ("headers".toList, jHeaders resp.masked_headers),
      ("status_code".toList, jOptInt resp.status_code),
      ("content_length".toList, .int (resp.content_length : Int))])),
    ("app".toList, match req.app with
      | none => .null
      | some a => .obj (jObjOf [("id".toList, .str a.gid),
          ("name".toList, .str a.name)])),
    ("gql_operations".toList, .obj (jObjOf [
      ("count".toList, .int (op_count : Int)),
      ("operations".toList, .arr (renderGqlOperations payloads))]))])

/-- The two `ValueError` shapes of the payload builders, told apart by
their messages: the "Payload too big" size failure and the missing-link
data-integrity failure. -/
inductive PayloadError where
  | size_exceeded
  | data_integrity
deriving Repr, DecidableEq

/-- `len(initial_dump)`: the serialized size of the payload before any
sub-operation is filled in. -/
def api_call_fixed_size (req : HttpRequestModel) (resp : HttpResponseModel)
    (op_count : Nat) : Nat :=
  jLen (apiCallJ req resp op_count [])

/-- Model of `generate_api_call_payload`: build the fixed payload, fail if
it alone exceeds the limit, try to fill the sub-operations under the
remaining budget, and fall back to an empty operation list if that raises;
the result is the camel-cased document. -/
def generate_api_call_payload (req : HttpRequestModel)
    (resp : HttpResponseModel) (ops : List GraphQLOperationResponse)
    (bytes_limit : Int) : Except PayloadError JValue :=
  let remaining := bytes_limit - (api_call_fixed_size req resp ops.length : Int)
  if remaining < 0 then .error .size_exceeded
  else
    match serialize_gql_operation_results ops remaining with
    | some payloads => .ok (toCamelV (apiCallJ req resp ops.length payloads))
    | none => .ok (toCamelV (apiCallJ req resp ops.length []))

/-! ## Delivery-attempt payload -/

/-- Model of `EventPayload` as read by the builder: `payload_raw` is the
stored payload string (whose character length is reported as
`content_length`); `anonymized_pretty` models
`_json_serialize(anonymize_event_payload(...), pretty=True)`, the
externally anonymized and pretty-printed body handed to truncation. -/
structure DeliveryPayloadModel where
  payload_raw : List Char
  anonymized_pretty : List Char
deriving Repr, DecidableEq

/-- Model of a `Webhook` row (global ids pre-rendered). -/
structure WebhookModel where
  gid : List Char
  name : Option (List Char)
  target_url : List Char
  subscription_query : Option (List Char)
  app_gid : List Char
  app_name : List Char
deriving Repr, DecidableEq

/-- Model of an `EventDelivery` row with its optional links. -/
structure EventDeliveryModel where
  gid : List Char
  status : List Char
  event_type : List Char
  payload : Option DeliveryPayloadModel
  webhook : Option WebhookModel
deriving Repr, DecidableEq

/-- Model of an `EventDeliveryAttempt` row: rendered timestamps, parsed
header maps (`json.loads(... or "\x7b\x7d")`), the response body and the
optional delivery link. -/
structure EventDeliveryAttemptModel where
  gid : List Char
  created_at_render : List Char
  duration_render : Option (List Char)
  status : List Char
  request_headers : List (List Char × List Char)
  response_headers : List (List Char × List Char)
  response : Option (List Char)
  response_status_code : Option Int
  delivery : Option EventDeliveryModel
deriving Repr, DecidableEq

/-- UTF-8 byte count of one code point (for
`len(response_body.encode("utf-8"))`). -/
def utf8Len1 (c : Char) : Nat :=
  if c.toNat < 0x80 then 1
  else if c.toNat < 0x800 then 2
  else if c.toNat < 0x10000 then 3
  else 4

def utf8Len (s : List Char) : Nat := (s.map utf8Len1).sum

/-- The `EventDeliveryAttemptPayload` document (snake-case keys, dict
insertion order), parameterized over the three truncatable bodies. -/
def attemptJ (sync_types : List (List Char)) (att : EventDeliveryAttemptModel)
    (d : EventDeliveryModel) (pl : DeliveryPayloadModel) (w : WebhookModel)
    (next_retry : Option (List Char)) (resp_body : JsonTruncText)
    (sub_query : Option JsonTruncText) (delivery_body : JsonTruncText) : JValue :=
  .obj (jObjOf [
    ("event_type".toList, .str "observability_event_delivery_attempt".toList),
    ("event_delivery_attempt".toList, .obj (jObjOf [
      ("id".toList, .str att.gid),
      ("time".toList, .str att.created_at_render),
      ("duration".toList, match att.duration_render with
        | none => .null
        | some r => .raw r),
      ("status".toList, .str att.status),
      ("next_retry".toList, match next_retry with
        | none => .null
        | some r => .str r)])),
    ("request".toList, .obj (jObjOf [
      ("headers".toList, jHeaders att.request_headers)])),
    ("response".toList, .obj (jObjOf [
      ("headers".toList, jHeaders att.response_headers),
      ("content_length".toList, .int (utf8Len (att.response.getD []) : Int)),
      ("body".toList, jTrunc resp_body),
      ("status_code".toList, jOptInt att.response_status_code)])),
    ("event_delivery".toList, .obj (jObjOf [
      ("id".toList, .str d.gid),
      ("status".toList, .str d.status),
      ("event_type".toList, .str d.event_type),
      ("event_sync".toList, .bool (sync_types.contains d.event_type)),
      ("payload".toList, .obj (jObjOf [
        ("content_length".toList, .int (pl.payload_raw.length : Int)),
        ("body".toList, jTrunc delivery_body)]))])),
    ("webhook".toList, .obj (jObjOf [
      ("id".toList, .str w.gid),
      ("name".toList, .str (w.name.getD [])),
      ("target_url".toList, .str w.target_url),
      ("subscription_query".toList, jOptTrunc sub_query)])),
    ("app".toList, .obj (jObjOf [
      ("id".toList, .str w.app_gid),
      ("name".toList, .str w.app_name)]))])

/-- `len(initial_dump)` for the delivery-attempt payload: serialized with
the placeholder in all three truncatable positions (dict values at that
point: `body=TRUNC_PLACEHOLDER`, `subscription_query=TRUNC_PLACEHOLDER`). -/
def delivery_attempt_fixed_size (sync_types : List (List Char))
    (att : EventDeliveryAttemptModel) (d : EventDeliveryModel)
    (pl : DeliveryPayloadModel) (w : WebhookModel)
    (next_retry : Option (List Char)) : Nat :=
  jLen (attemptJ sync_types att d pl w next_retry TRUNC_PLACEHOLDER
    (some TRUNC_PLACEHOLDER) TRUNC_PLACEHOLDER)

/-- Model of `generate_event_delivery_attempt_payload`: data-integrity
failures for missing links, a size failure when the fixed dump alone
exceeds the limit, then the three truncations (response body gets a third
of the remainder, the subscription query — when truthy — half of what is
left, the delivery body the rest); `sync_types` models the
`WebhookEventSyncType.ALL` constant (defined outside these modules). -/
def generate_event_delivery_attempt_payload (sync_types : List (List Char))
    (att : EventDeliveryAttemptModel) (next_retry : Option (List Char))
    (bytes_limit : Int) : Except PayloadError JValue :=
  match att.delivery with
  | none => .error .data_integrity
  | some d =>
    match d.payload, d.webhook with
    | some pl, some w =>
      let response_body := att.response.getD []
      let remaining := bytes_limit -
        (delivery_attempt_fixed_size sync_types att d pl w next_retry : Int)
      if remaining < 0 then .error .size_exceeded
      else
        let tb := truncate response_body (Int.fdiv remaining 3)
        let r1 := remaining - (tb.byte_size : Int)
        let subStep : Option JsonTruncText × Int :=
          match w.subscription_query with
          | some sq =>
            if sq.isEmpty then (none, r1)
            else
              let t := truncate sq (Int.fdiv r1 2)
              (some t, r1 - (t.byte_size : Int))
          | none => (none, r1)
        let pb := truncate pl.anonymized_pretty subStep.2
        .ok (toCamelV (attemptJ sync_types att d pl w next_retry tb subStep.1 pb))
    | _, _ => .error .data_integrity

/-! ## Instrumentation context, gate cache and reporting orchestrator
(`utils.py`).  The module-level caches, the external shared cache, the
webhook registry, the buffer and the monotonic clock are gathered into one
explicit state record; each Python function becomes a state transition. -/

/-- `utils.WebhookData`. -/
structure WebhookData where
  id : Nat
  saleor_domain : List Char
  target_url : List Char
  secret_key : Option (List Char)
deriving Repr, DecidableEq

/-- A webhook row as returned by `get_webhooks_for_event` (only the fields
`get_observability_webhooks` reads). -/
structure RegistryWebhook where
  id : Nat
  target_url : List Char
  secret_key : Option (List Char)
deriving Repr, DecidableEq

/-- The Django settings consulted by the orchestrator. -/
structure Settings where
  observability_active : Bool
  report_all_api_calls : Bool
  max_payload_size : Int
deriving Repr, DecidableEq

/-- `CACHE_TIMEOUT = parse("2 minutes")` (seconds). -/
def CACHE_TIMEOUT : Nat := 120

/-- The world the orchestrator acts on: the shared cache entry under
`WEBHOOKS_KEY`, the external webhook registry and site domain, the
process-local `_active_webhooks_exists_cache` (a single buffer key), the
monotonic clock, the external buffer, and two observation counters —
`builds` counts executions of the payload generator inside
`put_to_buffer`, `report_invocations` counts calls of `ApiCall.report`. -/
structure ObsState where
  shared_cache : Option (List WebhookData)
  registry : List RegistryWebhook
  site_domain : List Char
  local_gate : Option (Bool × Nat)
  now : Nat
  buffer : List JValue
  builds : Nat
  report_invocations : Nat

/-- Model of `get_observability_webhooks`: serve from the shared cache,
otherwise resolve the registry rows against the current site domain and
populate the cache (with `CACHE_TIMEOUT`, whose expiry is modelled by the
cache being `none` again). -/
def get_observability_webhooks (st : ObsState) : List WebhookData × ObsState :=
  match st.shared_cache with
  | some l => (l, st)
  | none =>
    let l := st.registry.map fun w =>
      WebhookData.mk w.id st.site_domain w.target_url w.secret_key
    (l, { st with shared_cache := some l })

/-- Model of `active_webhooks_exists(timeout)`: a fresh local gate entry is
returned as is; otherwise the endpoint list is fetched and its
non-emptiness memoized with the current monotonic time. -/
def active_webhooks_exists (timeout : Nat) (st : ObsState) : Bool × ObsState :=
  let recompute := fun (st : ObsState) =>
    let (l, st') := get_observability_webhooks st
    let is_active := !l.isEmpty
    (is_active, { st' with local_gate := some (is_active, st'.now) })
  match st.local_gate with
  | some (is_active, check_time) =>
    if st.now - check_time ≤ timeout then (is_active, st) else recompute st
  | none => recompute st

/-- Model of `put_to_buffer(generate_payload)`: run the generator (counted
by `builds`); push the document on success, swallow and log the exception
otherwise. -/
def put_to_buffer (res : Except PayloadError JValue) (st : ObsState) : ObsState :=
  { st with
    builds := st.builds + 1,
    buffer := match res with
      | .ok doc => st.buffer ++ [doc]
      | .error _ => st.buffer }

/-- Model of the `utils.ApiCall` accumulator.  `oid` models Python object
identity (each constructed accumulator gets a fresh one). -/
structure ApiCall where
  oid : Nat
  request : HttpRequestModel
  gql_operations : List GraphQLOperationResponse
  response : Option HttpResponseModel
  reported : Bool
deriving Repr, DecidableEq

/-- Model of `ApiCall.report`: idempotent-once finalize — no-op when
already reported or instrumentation is off, when the call is not
attributable to an app while app-only reporting is configured, or (logged)
when no response was attached; otherwise mark reported, consult the gate
and, if active, build and push the payload. -/
def ApiCall.report (s : Settings) (ac : ApiCall) (st : ObsState) :
    ApiCall × ObsState :=
  let st := { st with report_invocations := st.report_invocations + 1 }
  if ac.reported || !s.observability_active then (ac, st)
  else if !s.report_all_api_calls && ac.request.app.isNone then (ac, st)
  else
    match ac.response with
    | none => (ac, st)
    | some resp =>
      let ac := { ac with reported := true }
      let (is_active, st) := active_webhooks_exists CACHE_TIMEOUT st
      if is_active then
        (ac, put_to_buffer
          (generate_api_call_payload ac.request resp ac.gql_operations
            s.max_payload_size) st)
      else (ac, st)

/-- Model of `report_event_delivery_attempt`.  Note: the Python function
logs when the attempt has no delivery but does NOT return there — the
traced block with the gate check and the buffered build runs regardless
(the builder then raises the data-integrity `ValueError`, which
`put_to_buffer` swallows). -/
def report_event_delivery_attempt (s : Settings)
    (sync_types : List (List Char)) (att : EventDeliveryAttemptModel)
    (next_retry : Option (List Char)) (st : ObsState) : ObsState :=
  if !s.observability_active then st
  else
    let (is_active, st') := active_webhooks_exists CACHE_TIMEOUT st
    if is_active then
      put_to_buffer
        (generate_event_delivery_attempt_payload sync_types att next_retry
          s.max_payload_size) st'
    else st'

/-! ### Re-entrant scopes (`report_api_call`, `report_gql_operation`) -/

/-- A fresh `GraphQLOperationResponse()` accumulator paired with its
object identity. -/
structure GqlScopeAcc where
  oid : Nat
  data : GraphQLOperationResponse
deriving Repr, DecidableEq

/-- The context-local storage (`_context = Local()`) plus the fresh-object
counter that models Python object identity. -/
structure Ctx where
  api_call : Option ApiCall
  gql_operation : Option GqlScopeAcc
  fresh : Nat
deriving Repr, DecidableEq

/-- Entering `report_api_call(request)`: reuse the stored accumulator when
one exists, otherwise create a fresh one and remember that this entry owns
it (`root`).  Returns the yielded accumulator, the `root` flag and the
updated context. -/
def enterApiCall (req : HttpRequestModel) (ctx : Ctx) : ApiCall × Bool × Ctx :=
  match ctx.api_call with
  | some ac => (ac, false, ctx)
  | none =>
    let ac : ApiCall := ⟨ctx.fresh, req, [], none, false⟩
    (ac, true, { ctx with api_call := some ac, fresh := ctx.fresh + 1 })

/-- Exiting `report_api_call`: only the owning entry reports the
accumulator and deletes it from the context. -/
def exitApiCall (root : Bool) (s : Settings) (ctx : Ctx) (st : ObsState) :
    Ctx × ObsState :=
  if root then
    match ctx.api_call with
    | some ac =>
      let (_, st') := ApiCall.report s ac st
      ({ ctx with api_call := none }, st')
    | none => (ctx, st)
  else (ctx, st)

/-- Entering `report_gql_operation()`: same reuse pattern on the
`gql_operation` slot. -/
def enterGqlOperation (ctx : Ctx) : GqlScopeAcc × Bool × Ctx :=
  match ctx.gql_operation with
  | some g => (g, false, ctx)
  | none =>
    let g : GqlScopeAcc := ⟨ctx.fresh, ⟨none, none, none, none, false⟩⟩
    (g, true, { ctx with gql_operation := some g, fresh := ctx.fresh + 1 })

/-- Exiting `report_gql_operation`: the owning exit appends the completed
operation to the current API-call accumulator (when one exists) and clears
the slot; non-owning exits do nothing. -/
def exitGqlOperation (root : Bool) (ctx : Ctx) : Ctx :=
  if root then
    match ctx.gql_operation with
    | some g =>
      let ctx' :=
        match ctx.api_call with
        | some ac =>
          let ac' := { ac with gql_operations := ac.gql_operations ++ [g.data] }
          { ctx with api_call := some ac' }
        | none => ctx
      { ctx' with gql_operation := none }
    | none => ctx
  else ctx

/-! ### Event sequences for the gate short-circuit property -/

/-- One reported event: the finalize of an API-call accumulator, or a
delivery-attempt report. -/
inductive ReportEvent where
  | api (ac : ApiCall)
  | attempt (sync_types : List (List Char)) (att : EventDeliveryAttemptModel)
      (next_retry : Option (List Char))

/-- Run one report against the world. -/
def reportStep (s : Settings) (st : ObsState) : ReportEvent → ObsState
  | .api ac => (ApiCall.report s ac st).2
  | .attempt sync_types att next_retry =>
    report_event_delivery_attempt s sync_types att next_retry st

/-- Run a sequence of reports. -/
def runReports (s : Settings) : List ReportEvent → ObsState → ObsState
  | [], st => st
  | ev :: evs, st => runReports s evs (reportStep s st ev)

/-- The cached/registered endpoint information is empty: the registry has
no webhook for the observability event, the shared cache is a miss or
holds the empty list, and any memoized gate entry records `false`. -/
def gateEmpty (st : ObsState) : Prop :=
  st.registry = [] ∧
  (st.shared_cache = none ∨ st.shared_cache = some []) ∧
  (∀ b t, st.local_gate = some (b, t) → b = false)

/-! ### Nested scope executors -/

/-- Enter the API-call scope `n` times in a row (without leaving),
recording each yielded accumulator and its `root` flag. -/
def enterApiCallTimes (req : HttpRequestModel) :
    Nat → Ctx → List (ApiCall × Bool) × Ctx
  | 0, ctx => ([], ctx)
  | n + 1, ctx =>
    let e := enterApiCall req ctx
    let rest := enterApiCallTimes req n e.2.2
    ((e.1, e.2.1) :: rest.1, rest.2)

/-- Leave the recorded entries innermost-first (the head of the list is
the outermost entry, so it exits last). -/
def exitApiCallAll (s : Settings) :
    List (ApiCall × Bool) → Ctx → ObsState → Ctx × ObsState
  | [], ctx, st => (ctx, st)
  | e :: rest, ctx, st =>
    let inner := exitApiCallAll s rest ctx st
    exitApiCall e.2 s inner.1 inner.2

/-- Enter the sub-operation scope `n` times in a row. -/
def enterGqlTimes : Nat → Ctx → List (GqlScopeAcc × Bool) × Ctx
  | 0, ctx => ([], ctx)
  | n + 1, ctx =>
    let e := enterGqlOperation ctx
    let rest := enterGqlTimes n e.2.2
    ((e.1, e.2.1) :: rest.1, rest.2)

/-- Leave the recorded sub-operation entries innermost-first. -/
def exitGqlAll : List (GqlScopeAcc × Bool) → Ctx → Ctx
  | [], ctx => ctx
  | e :: rest, ctx => exitGqlOperation e.2 (exitGqlAll rest ctx)

/-- Concrete attempt for the C6 witness: all links present. -/
def w6_attempt : EventDeliveryAttemptModel :=
  ⟨"AID".toList, "2022-01-01T00:00:00+00:00".toList, none, "success".toList,
    [], [], none, some 200,
    some ⟨"DID".toList, "pending".toList, "any_events".toList,
      some ⟨"pay".toList, "pay".toList⟩,
      some ⟨"WID".toList, none, "http://w".toList, none,
        "APPID".toList, "app".toList⟩⟩⟩

/-- Concrete request for the C7/C9 witnesses. -/
def w7_req : HttpRequestModel :=
  ⟨"b8f2".toList, "POST".toList, "http://s/graphql".toList, "1.5".toList,
    [], 0, none⟩

/-- Concrete response for the C7/C9 witnesses. -/
def w7_resp : HttpResponseModel := ⟨[], some 200, 2⟩

/-- Concrete sub-operation for the C7 witness. -/
def w7_op : GraphQLOperationResponse :=
  ⟨some "Q".toList, some "query Q".toList, some "query".toList, none, false⟩

/-- Concrete gate-empty world for the C4 witness. -/
def w4_st : ObsState :=
  ⟨none, [], "s.example".toList, none, 0, [], 0, 0⟩

/-- Concrete accumulator for the C4 witness. -/
def w4_ac : ApiCall := ⟨0, w7_req, [], some w7_resp, false⟩

/-- Concrete attempt without a linked delivery (for C8). -/
def w8_att : EventDeliveryAttemptModel :=
  ⟨"A".toList, "T".toList, none, "failed".toList, [], [], none, none, none⟩

/-- Concrete world with instrumentation on and a fresh positive gate
entry (for C8 and C10). -/
def w8_st : ObsState :=
  ⟨none, [], "s.example".toList, some (true, 0), 0, [], 0, 0⟩

/-- Concrete settings with instrumentation on (for C8 and C10). -/
def w8_s : Settings := ⟨true, true, 100000⟩

/-- Concrete accumulator without a response attached (for C10). -/
def w10_ac : ApiCall := ⟨0, w7_req, [], none, false⟩

/-! ## Theorems -/

-- Sanity checks against the repository's own test vectors
-- (`test_json_truncate_text_to_byte_limit`).
example : truncate "abcde".toList 5 = ⟨"abcde".toList, false, 0⟩ := by decide
example : truncate "abó".toList 3 = ⟨"ab".toList, true, 0⟩ := by decide
example : truncate "abó".toList 8 = ⟨"abó".toList, false, 5⟩ := by decide
example : truncate "abó".toList 12 = ⟨"abó".toList, false, 5⟩ := by decide
example : truncate "a\nc𐀁d".toList 17 = ⟨"a\nc𐀁d".toList, false, 12⟩ := by decide
example : truncate "a\nc𐀁d".toList 10 = ⟨"a\nc".toList, true, 1⟩ := by decide
example : truncate "a\nc𐀁d".toList 16 = ⟨"a\nc𐀁".toList, true, 12⟩ := by decide
example : truncate "abcd".toList 0 = ⟨[], true, 0⟩ := by decide
example : (truncate "abcd".toList (-7)).text = [] := by decide

/-- The truncation loop never returns a text longer than the characters it
has seen: the scanned prefix plus the remaining input. -/
theorem truncGo_length_le (limit s_init_len : Nat) :
    ∀ (rest pre : List Char) (added : Nat),
      (truncGo limit s_init_len pre added rest).text.length ≤
        pre.length + rest.length := by
  intro rest
  induction rest with
  | nil => intro pre added; simp [truncGo]
  | cons c rest ih =>
    intro pre added
    simp only [truncGo]
    split
    · split
      · simp
      · split
        · simp only [List.length_append, List.length_cons, List.length_nil]
          omega
        · have h := ih (pre ++ [c]) (added + (json_char_len c - 1))
          simp only [List.length_append, List.length_cons, List.length_nil] at h ⊢
          omega
    · have h := ih (pre ++ [c]) added
      simp only [List.length_append, List.length_cons, List.length_nil] at h ⊢
      omega

/-- The text produced by `truncate` never exceeds the (clamped) character
budget: it is a prefix of the first `max(limit, 0)` characters. -/
theorem truncate_text_length_le (s : List Char) (limit : Int) :
    (truncate s limit).text.length ≤ limit.toNat := by
  have h := truncGo_length_le limit.toNat s.length (s.take limit.toNat) [] 0
  simp only [List.length_nil, Nat.zero_add] at h
  exact h.trans (List.length_take_le limit.toNat s)

/-- The truncation loop returns the scanned prefix extended by some suffix
`u` of the remaining input, its added bytes are the starting value plus the
escape overhead of `u`, and replaying the escape checks over `u` passes. -/
theorem truncGo_scan (limit s_init_len : Nat) :
    ∀ (rest pre : List Char) (added : Nat),
      ∃ u, (truncGo limit s_init_len pre added rest).text = pre ++ u ∧
        (truncGo limit s_init_len pre added rest).added_bytes = added + added_of u ∧
        scanOK limit pre.length added u = true := by
  intro rest
  induction rest with
  | nil =>
    intro pre added
    exact ⟨[], by simp [truncGo, scanOK, added_of]⟩
  | cons c rest ih =>
    intro pre added
    simp only [truncGo]
    split
    · rename_i hesc
      split
      · exact ⟨[], by simp [scanOK, added_of]⟩
      · split
        · rename_i hgt heq
          refine ⟨[c], by simp, by simp [added_of, hesc], ?_⟩
          simp [scanOK, hesc, hgt, heq]
        · rename_i hgt heq
          obtain ⟨u, h1, h2, h3⟩ := ih (pre ++ [c]) (added + (json_char_len c - 1))
          refine ⟨c :: u, by simpa using h1, ?_, ?_⟩
          · rw [h2]; simp [added_of, hesc]; omega
          · simp only [scanOK, hesc, if_pos]
            rw [if_neg hgt, if_neg heq]
            simpa using h3
    · rename_i hesc
      obtain ⟨u, h1, h2, h3⟩ := ih (pre ++ [c]) added
      refine ⟨c :: u, by simpa using h1, ?_, ?_⟩
      · rw [h2]; simp [added_of, hesc]
      · simp only [scanOK, hesc, if_neg]
        simpa using h3

/-- Replay: if every escape check over `rest` passes (in the `scanOK`
sense) and the initial length is exactly the whole text, the loop consumes
all of `rest` and reports `truncated = false`. -/
theorem truncGo_replay (limit : Nat) :
    ∀ (rest pre : List Char) (added : Nat),
      scanOK limit pre.length added rest = true →
      truncGo limit (pre.length + rest.length) pre added rest =
        ⟨pre ++ rest, false, added + added_of rest⟩ := by
  intro rest
  induction rest with
  | nil =>
    intro pre added _
    simp [truncGo, added_of]
  | cons c rest ih =>
    intro pre added hscan
    simp only [scanOK] at hscan
    simp only [truncGo]
    split
    · rename_i hesc
      rw [if_pos hesc] at hscan
      split
      · rename_i hgt
        rw [if_pos hgt] at hscan
        exact absurd hscan (by simp)
      · rename_i hgt
        rw [if_neg hgt] at hscan
        split
        · rename_i heq
          rw [if_pos heq] at hscan
          have hrest : rest = [] := by
            cases rest with
            | nil => rfl
            | cons d ds => simp [List.isEmpty] at hscan
          subst hrest
          simp [added_of, hesc]
        · rename_i heq
          rw [if_neg heq] at hscan
          have h := ih (pre ++ [c]) (added + (json_char_len c - 1))
            (by simpa using hscan)
          simp only [List.length_append, List.length_cons, List.length_nil,
            Nat.zero_add] at h
          simp only [List.length_cons]
          rw [show pre.length + (rest.length + 1) = pre.length + 1 + rest.length by omega]
          rw [h]
          simp [added_of, hesc]
          omega
    · rename_i hesc
      rw [if_neg hesc] at hscan
      have h := ih (pre ++ [c]) added (by simpa using hscan)
      simp only [List.length_append, List.length_cons, List.length_nil,
        Nat.zero_add] at h
      simp only [List.length_cons]
      rw [show pre.length + (rest.length + 1) = pre.length + 1 + rest.length by omega]
      rw [h]
      simp [added_of, hesc]

/-- Re-truncating an output of `truncate` with the same limit returns the
same text and the same added bytes, with the `truncated` flag cleared. -/
theorem truncate_replay (s : List Char) (limit : Int) :
    truncate (truncate s limit).text limit =
      ⟨(truncate s limit).text, false, (truncate s limit).added_bytes⟩ := by
  obtain ⟨u, h1, h2, h3⟩ :=
    truncGo_scan limit.toNat s.length (s.take limit.toNat) [] 0
  simp only [List.nil_append, List.length_nil, Nat.zero_add] at h1 h2 h3
  have h1' : (truncate s limit).text = u := h1
  have h2' : (truncate s limit).added_bytes = added_of u := h2
  have hlen : (truncate s limit).text.length ≤ limit.toNat :=
    truncate_text_length_le s limit
  show truncGo limit.toNat (truncate s limit).text.length [] 0
      ((truncate s limit).text.take limit.toNat) = _
  rw [List.take_of_length_le hlen, h1', h2']
  have h := truncGo_replay limit.toNat u [] 0 (by simpa using h3)
  simpa using h

-- Sanity: lengths agree with `json.dumps` on simple shapes.
example : jLen (.obj (jObjOf [("a".toList, .int 1), ("b".toList, .int 2)])) =
    ("\x7b\"a\": 1, \"b\": 2\x7d".toList).length := by decide
example : jLen (.obj .nil) = 2 := by decide
example : jLen (.str "a\nó".toList) = 11 := by decide

example : to_camel_case "gql_operations".toList = "gqlOperations".toList := by decide
example : to_camel_case "event_type".toList = "eventType".toList := by decide
example : to_camel_case "count".toList = "count".toList := by decide

example : GQL_OPERATION_PLACEHOLDER_SIZE = 188 := by decide

/-! ## Lemmas on the sub-operation budget division -/

theorem sgorNameStep_le (name : Option (List Char)) (bl : Int) :
    (sgorNameStep name bl).2 ≤ bl := by
  rcases name with _ | nm
  · exact le_refl bl
  · by_cases h : nm.isEmpty
    · simp [sgorNameStep, h]
    · simp only [sgorNameStep, if_neg h]
      omega

theorem sgorQueryStep_le (query ast : Option (List Char)) (bl : Int) :
    (sgorQueryStep query ast bl).2.2 ≤ bl := by
  rcases query with _ | q
  · exact le_refl bl
  · simp only [sgorQueryStep]
    omega

theorem sgorResultStep_le (result : Option (List Char)) (bl : Int) :
    (sgorResultStep result bl).2 ≤ bl := by
  rcases result with _ | r
  · exact le_refl bl
  · simp only [sgorResultStep]
    omega

/-- When the slice covers the placeholder cost, serializing one operation
cannot fail. -/
theorem serialize_gql_operation_result_some (op : GraphQLOperationResponse)
    (alloc : Int) (h : (GQL_OPERATION_PLACEHOLDER_SIZE : Int) ≤ alloc) :
    ∃ p left, serialize_gql_operation_result op alloc = some (p, left) := by
  unfold serialize_gql_operation_result
  rw [if_neg (by omega)]
  exact ⟨_, _, rfl⟩

/-- The unused budget an operation returns is non-negative and bounded by
its slice minus the placeholder cost. -/
theorem serialize_gql_operation_result_left_bounds
    (op : GraphQLOperationResponse) (alloc : Int)
    (p : GraphQLOperationPayload) (left : Int)
    (h : serialize_gql_operation_result op alloc = some (p, left)) :
    0 ≤ left ∧ left ≤ alloc - (GQL_OPERATION_PLACEHOLDER_SIZE : Int) := by
  unfold serialize_gql_operation_result at h
  by_cases hg : alloc - (GQL_OPERATION_PLACEHOLDER_SIZE : Int) < 0
  · rw [if_pos hg] at h; cases h
  · rw [if_neg hg] at h
    simp only [Option.some.injEq, Prod.mk.injEq] at h
    obtain ⟨-, hl⟩ := h
    have hchain :
        (sgorResultStep op.result
          (sgorQueryStep op.query op.operation_ast
            (sgorNameStep op.name
              (alloc - (GQL_OPERATION_PLACEHOLDER_SIZE : Int))).2).2.2).2 ≤
          alloc - (GQL_OPERATION_PLACEHOLDER_SIZE : Int) :=
      le_trans (sgorResultStep_le _ _)
        (le_trans (sgorQueryStep_le _ _ _) (sgorNameStep_le _ _))
    constructor
    · rw [← hl]; exact le_max_left _ _
    · rw [← hl]
      exact max_le (by omega) hchain

/-- When the pool covers one placeholder per remaining operation, the
division loop never fails. -/
theorem sgorGo_some :
    ∀ (ops : List GraphQLOperationResponse) (bl : Int),
      (ops.length : Int) * (GQL_OPERATION_PLACEHOLDER_SIZE : Int) ≤ bl →
      ∃ ps, sgorGo ops bl = some ps
  | [], _, _ => ⟨[], rfl⟩
  | op :: rest, bl, h => by
    have hPnn : (0 : Int) ≤ (GQL_OPERATION_PLACEHOLDER_SIZE : Int) :=
      Int.natCast_nonneg _
    have hn0 : (0 : Int) < (rest.length : Int) + 1 := by
      have := Int.natCast_nonneg rest.length; omega
    have hblP : ((rest.length : Int) + 1) *
        (GQL_OPERATION_PLACEHOLDER_SIZE : Int) ≤ bl := by
      have hlen : ((op :: rest).length : Int) = (rest.length : Int) + 1 := by
        simp [List.length_cons]
      rw [hlen] at h; exact h
    have hbl0 : (0 : Int) ≤ bl :=
      le_trans (mul_nonneg (by omega) hPnn) hblP
    have halloc : Int.fdiv bl ((rest.length : Int) + 1) =
        bl / ((rest.length : Int) + 1) := Int.fdiv_eq_ediv bl (le_of_lt hn0)
    have hPalloc : (GQL_OPERATION_PLACEHOLDER_SIZE : Int) ≤
        Int.fdiv bl ((rest.length : Int) + 1) := by
      rw [halloc, Int.le_ediv_iff_mul_le hn0]
      linarith [hblP]
    obtain ⟨p, left, hpl⟩ := serialize_gql_operation_result_some op _ hPalloc
    obtain ⟨hl0, hlle⟩ :=
      serialize_gql_operation_result_left_bounds op _ p left hpl
    have hrest : (rest.length : Int) * (GQL_OPERATION_PLACEHOLDER_SIZE : Int) ≤
        bl - (Int.fdiv bl ((rest.length : Int) + 1) - left) := by
      rw [halloc]
      have hmod : (0 : Int) ≤ bl % ((rest.length : Int) + 1) :=
        Int.emod_nonneg bl (by omega)
      have hdm : ((rest.length : Int) + 1) * (bl / ((rest.length : Int) + 1)) +
          bl % ((rest.length : Int) + 1) = bl :=
        Int.ediv_add_emod bl ((rest.length : Int) + 1)
      have key : ((rest.length : Int) + 1) *
          ((rest.length : Int) * (GQL_OPERATION_PLACEHOLDER_SIZE : Int)) ≤
          ((rest.length : Int) + 1) * (bl - bl / ((rest.length : Int) + 1)) := by
        nlinarith [hblP, hmod, hdm, Int.natCast_nonneg rest.length]
      have h2 : (rest.length : Int) * (GQL_OPERATION_PLACEHOLDER_SIZE : Int) ≤
          bl - bl / ((rest.length : Int) + 1) :=
        le_of_mul_le_mul_left key hn0
      omega
    obtain ⟨ps, hps⟩ := sgorGo_some rest _ hrest
    refine ⟨p :: ps, ?_⟩
    simp only [sgorGo, hpl, hps]

/-- The indexed spec recursion (`count - i` operations remaining) agrees
with the code's loop. -/
theorem spec_sub_op_go_eq :
    ∀ (ops : List GraphQLOperationResponse) (i count : Nat),
      count = i + ops.length →
      ∀ bl, spec_sub_op_go count i ops bl = sgorGo ops bl
  | [], _, _, _, _ => rfl
  | op :: rest, i, count, h, bl => by
    have hci : count - i = rest.length + 1 := by
      simp [List.length_cons] at h; omega
    simp only [spec_sub_op_go, sgorGo, hci]
    push_cast
    cases hres : serialize_gql_operation_result op
        (Int.fdiv bl ((rest.length : Int) + 1)) with
    | none => rfl
    | some pl =>
      obtain ⟨p, left⟩ := pl
      have hrec := spec_sub_op_go_eq rest (i + 1) count
        (by simp [List.length_cons] at h ⊢; omega)
        (bl - Int.fdiv bl ((rest.length : Int) + 1) + left)
      simp only [sub_add] at hrec ⊢
      rw [hrec]

/-- The list serializer fails exactly when the pool is below one
placeholder cost per operation. -/
theorem serialize_gql_operation_results_none_iff
    (ops : List GraphQLOperationResponse) (bl : Int) :
    serialize_gql_operation_results ops bl = none ↔
      bl < (ops.length : Int) * (GQL_OPERATION_PLACEHOLDER_SIZE : Int) := by
  constructor
  · intro h
    by_contra hlt
    push_neg at hlt
    obtain ⟨ps, hps⟩ := sgorGo_some ops bl hlt
    unfold serialize_gql_operation_results at h
    rw [if_neg (by omega), hps] at h
    cases h
  · intro h
    unfold serialize_gql_operation_results
    rw [if_pos (by omega)]

/-- Contrapositive form: a sufficient pool always yields a payload list. -/
theorem serialize_gql_operation_results_some
    (ops : List GraphQLOperationResponse) (bl : Int)
    (h : (ops.length : Int) * (GQL_OPERATION_PLACEHOLDER_SIZE : Int) ≤ bl) :
    ∃ ps, serialize_gql_operation_results ops bl = some ps := by
  cases hres : serialize_gql_operation_results ops bl with
  | none =>
    rw [serialize_gql_operation_results_none_iff] at hres
    omega
  | some ps => exact ⟨ps, rfl⟩

/-! ## Claim theorems -/

/-- C1 — counterexample: the claim "`Truncate(text, limit).byteSize <=
limit` for every text and limit" is false.  For `text = "\nab"` and
`limit = 3` the code returns the whole string with the `truncated` flag
clear, and its encoded size is 4 > 3: after the newline's escape check
passes, the escape overhead is never re-checked against the limit for the
trailing plain characters. -/
theorem c1_byte_size_bound_counterexample :
    (truncate "\nab".toList 3).byte_size = 4 ∧
      ¬ ((truncate "\nab".toList 3).byte_size ≤ 3) := by decide

/-- C1 (amended): the returned text never exceeds `max(limit, 0)`
characters, and hence `byteSize` is bounded by `max(limit, 0)` plus the
escape overhead (`addedBytes`) of the returned prefix.  The stronger bound
`byteSize ≤ limit` does not hold (see the counterexample): escape overhead
that accrues with no later escape character to trigger a cut can push the
encoded size past the requested budget. -/
theorem c1_truncate_byte_size_bound (s : List Char) (limit : Int) :
    (truncate s limit).text.length ≤ limit.toNat ∧
      (truncate s limit).byte_size ≤ limit.toNat + (truncate s limit).added_bytes := by
  refine ⟨truncate_text_length_le s limit, ?_⟩
  have h := truncate_text_length_le s limit
  unfold JsonTruncText.byte_size
  omega

/-- C2: serializing a list of sub-operations under a budget fails exactly
when the budget is below `count * placeholderCost`; otherwise the code's
left-to-right loop — the i-th of the remaining `count - i` operations is
allocated `remaining // (count - i)` bytes and returns its unused portion
to the pool — is exactly the behaviour described by the spec
(`spec_sub_op_budget`). -/
theorem c2_sub_operation_list_budgeting
    (ops : List GraphQLOperationResponse) (remaining : Int) :
    (serialize_gql_operation_results ops remaining = none ↔
      remaining < (ops.length : Int) * (GQL_OPERATION_PLACEHOLDER_SIZE : Int)) ∧
    serialize_gql_operation_results ops remaining =
      spec_sub_op_budget ops remaining := by
  constructor
  · exact serialize_gql_operation_results_none_iff ops remaining
  · unfold serialize_gql_operation_results spec_sub_op_budget
    by_cases hg :
        remaining - (ops.length : Int) * (GQL_OPERATION_PLACEHOLDER_SIZE : Int) < 0
    · rw [if_pos hg, if_pos (by omega)]
    · rw [if_neg hg, if_neg (by omega)]
      exact (spec_sub_op_go_eq ops 0 ops.length (by omega) remaining).symm

/-- C3 — counterexample: re-truncating the output does not preserve the
`truncated` flag.  `Truncate("abó", 3)` returns `("ab", truncated=True)`,
but `Truncate("ab", 3)` returns `("ab", truncated=False)`. -/
theorem c3_idempotence_counterexample :
    (truncate "abó".toList 3).truncated = true ∧
      (truncate (truncate "abó".toList 3).text 3).truncated = false := by decide

/-- C3 (amended): truncation is idempotent on the text and the added
bytes — re-truncating the returned text with the same limit returns it
unchanged — but the second application always reports
`truncated = false`, so the flag of the first application is reproduced
exactly when the first application did not truncate. -/
theorem c3_truncate_idempotent (s : List Char) (limit : Int) :
    truncate (truncate s limit).text limit =
      ⟨(truncate s limit).text, false, (truncate s limit).added_bytes⟩ :=
  truncate_replay s limit

/-- C6: delivery-attempt payload building raises the data-integrity
`ValueError` exactly when the attempt has no linked delivery or the
delivery lacks its payload or webhook reference; it raises the size
`ValueError` exactly when the links are present and the byte limit is
below the serialized size of the fixed (placeholder-filled) document; and
with intact links and a sufficient limit it always produces a document. -/
theorem c6_delivery_attempt_payload_errors (sync_types : List (List Char))
    (att : EventDeliveryAttemptModel) (next_retry : Option (List Char))
    (bytes_limit : Int) :
    (generate_event_delivery_attempt_payload sync_types att next_retry bytes_limit
        = .error .data_integrity ↔
      att.delivery = none ∨
        ∃ d, att.delivery = some d ∧ (d.payload = none ∨ d.webhook = none)) ∧
    (generate_event_delivery_attempt_payload sync_types att next_retry bytes_limit
        = .error .size_exceeded ↔
      ∃ d pl w, att.delivery = some d ∧ d.payload = some pl ∧ d.webhook = some w ∧
        bytes_limit <
          (delivery_attempt_fixed_size sync_types att d pl w next_retry : Int)) ∧
    (∀ d pl w, att.delivery = some d → d.payload = some pl → d.webhook = some w →
      (delivery_attempt_fixed_size sync_types att d pl w next_retry : Int) ≤
        bytes_limit →
      ∃ doc, generate_event_delivery_attempt_payload sync_types att next_retry
        bytes_limit = .ok doc) := by
  rcases hdel : att.delivery with _ | d
  · refine ⟨by simp [generate_event_delivery_attempt_payload, hdel], ?_, ?_⟩
    · simp [generate_event_delivery_attempt_payload, hdel]
    · intro d pl w hd
      cases hd
  · rcases hpl : d.payload with _ | pl
    · refine ⟨?_, ?_, ?_⟩
      · simp only [generate_event_delivery_attempt_payload, hdel, hpl]
        simp [hdel, hpl]
      · simp only [generate_event_delivery_attempt_payload, hdel, hpl]
        simp [hdel, hpl]
      · intro d' pl' w hd hp
        cases hd
        rw [hpl] at hp
        cases hp
    · rcases hwh : d.webhook with _ | w
      · refine ⟨?_, ?_, ?_⟩
        · simp only [generate_event_delivery_attempt_payload, hdel, hpl, hwh]
          simp [hdel, hpl, hwh]
        · simp only [generate_event_delivery_attempt_payload, hdel, hpl, hwh]
          simp [hdel, hpl, hwh]
        · intro d' pl' w' hd hp hw
          cases hd
          rw [hwh] at hw
          cases hw
      · by_cases hlim : bytes_limit -
            (delivery_attempt_fixed_size sync_types att d pl w next_retry : Int) < 0
        · refine ⟨?_, ?_, ?_⟩
          · simp only [generate_event_delivery_attempt_payload, hdel, hpl, hwh,
              if_pos hlim]
            simp [hdel, hpl, hwh]
          · simp only [generate_event_delivery_attempt_payload, hdel, hpl, hwh,
              if_pos hlim]
            constructor
            · intro _
              exact ⟨d, pl, w, rfl, hpl, hwh, by omega⟩
            · intro _
              trivial
          · intro d' pl' w' hd hp hw hle
            cases hd
            rw [hpl] at hp
            cases hp
            rw [hwh] at hw
            cases hw
            omega
        · refine ⟨?_, ?_, ?_⟩
          · simp only [generate_event_delivery_attempt_payload, hdel, hpl, hwh,
              if_neg hlim]
            simp [hdel, hpl, hwh]
          · simp only [generate_event_delivery_attempt_payload, hdel, hpl, hwh,
              if_neg hlim]
            constructor
            · intro h
              cases h
            · rintro ⟨d', pl', w', hd, hp, hw, hlt⟩
              cases hd
              rw [hpl] at hp
              cases hp
              rw [hwh] at hw
              cases hw
              omega
          · intro d' pl' w' hd hp hw hle
            cases hres : generate_event_delivery_attempt_payload sync_types att
                next_retry bytes_limit with
            | ok doc => exact ⟨doc, rfl⟩
            | error e =>
              exact absurd hres (by
                simp only [generate_event_delivery_attempt_payload, hdel, hpl,
                  hwh, if_neg hlim]
                simp)

/-- Witness for C6: on a concrete attempt with intact links and a large
budget, building the payload succeeds. -/
theorem c6_delivery_attempt_payload_errors_witness :
    ∃ doc, generate_event_delivery_attempt_payload [] w6_attempt none 100000
      = .ok doc :=
  (c6_delivery_attempt_payload_errors [] w6_attempt none 100000).2.2
    _ _ _ rfl rfl rfl (by decide)

/-- C7: the API-call payload assembler fails (with the size error) exactly
when the fixed portion alone exceeds the byte limit; in particular, when
the budget left for sub-operations cannot cover their placeholders — the
condition under which the sub-operation step raises — the document is
still produced, with the full fixed payload and an empty operation list. -/
theorem c7_api_call_payload_degrades (req : HttpRequestModel)
    (resp : HttpResponseModel) (ops : List GraphQLOperationResponse)
    (bytes_limit : Int) :
    ((∃ e, generate_api_call_payload req resp ops bytes_limit = .error e) ↔
      bytes_limit < (api_call_fixed_size req resp ops.length : Int)) ∧
    ((api_call_fixed_size req resp ops.length : Int) ≤ bytes_limit →
      bytes_limit - (api_call_fixed_size req resp ops.length : Int) <
        (ops.length : Int) * (GQL_OPERATION_PLACEHOLDER_SIZE : Int) →
      generate_api_call_payload req resp ops bytes_limit =
        .ok (toCamelV (apiCallJ req resp ops.length []))) ∧
    ((api_call_fixed_size req resp ops.length : Int) ≤ bytes_limit →
      ∃ doc, generate_api_call_payload req resp ops bytes_limit = .ok doc) := by
  by_cases hlim : bytes_limit - (api_call_fixed_size req resp ops.length : Int) < 0
  · refine ⟨?_, ?_, ?_⟩
    · simp only [generate_api_call_payload, if_pos hlim]
      constructor
      · intro _
        omega
      · intro _
        exact ⟨.size_exceeded, rfl⟩
    · intro hle
      omega
    · intro hle
      omega
  · refine ⟨?_, ?_, ?_⟩
    · constructor
      · rintro ⟨e, he⟩
        simp only [generate_api_call_payload, if_neg hlim] at he
        cases hser : serialize_gql_operation_results ops
            (bytes_limit - (api_call_fixed_size req resp ops.length : Int)) with
        | none => rw [hser] at he; cases he
        | some ps => rw [hser] at he; cases he
      · intro h
        omega
    · intro _ hfail
      simp only [generate_api_call_payload, if_neg hlim]
      have hnone : serialize_gql_operation_results ops
          (bytes_limit - (api_call_fixed_size req resp ops.length : Int)) = none :=
        (serialize_gql_operation_results_none_iff _ _).2 hfail
      rw [hnone]
    · intro _
      simp only [generate_api_call_payload, if_neg hlim]
      cases hser : serialize_gql_operation_results ops
          (bytes_limit - (api_call_fixed_size req resp ops.length : Int)) with
      | none => exact ⟨_, rfl⟩
      | some ps => exact ⟨_, rfl⟩

/-- Witness for C7: with one sub-operation and a budget that covers the
fixed part but leaves only 10 bytes (below one placeholder cost of 188)
for the sub-operations, the assembler still emits the document with an
empty operation list. -/
theorem c7_api_call_payload_degrades_witness :
    generate_api_call_payload w7_req w7_resp [w7_op]
        ((api_call_fixed_size w7_req w7_resp 1 : Int) + 10) =
      .ok (toCamelV (apiCallJ w7_req w7_resp 1 [])) :=
  (c7_api_call_payload_degrades w7_req w7_resp [w7_op] _).2.1
    (by
      simp only [List.length_cons, List.length_nil, Nat.zero_add]
      omega)
    (by
      have h : GQL_OPERATION_PLACEHOLDER_SIZE = 188 := by decide
      simp only [List.length_cons, List.length_nil, Nat.zero_add, h]
      omega)

/-- In every document built by the API-call assembler, the
`gqlOperations.count` field equals the supplied operation count,
whatever list fills `operations`. -/
theorem apiCall_count_field (req : HttpRequestModel) (resp : HttpResponseModel)
    (n : Nat) (payloads : List GraphQLOperationPayload) :
    (jGet "gqlOperations".toList (toCamelV (apiCallJ req resp n payloads))).bind
      (jGet "count".toList) = some (.int (n : Int)) := rfl

/-- C9: every document returned by `generate_api_call_payload` carries
`gqlOperations.count` equal to the number of sub-operations supplied by
the caller — also when the budget fallback empties the operations list. -/
theorem c9_count_field_matches_input (req : HttpRequestModel)
    (resp : HttpResponseModel) (ops : List GraphQLOperationResponse)
    (bytes_limit : Int) (doc : JValue)
    (h : generate_api_call_payload req resp ops bytes_limit = .ok doc) :
    (jGet "gqlOperations".toList doc).bind (jGet "count".toList) =
      some (.int (ops.length : Int)) := by
  simp only [generate_api_call_payload] at h
  split at h
  · cases h
  · cases hser : serialize_gql_operation_results ops
        (bytes_limit - (api_call_fixed_size req resp ops.length : Int)) with
    | none =>
      rw [hser] at h
      cases h
      exact apiCall_count_field req resp ops.length []
    | some ps =>
      rw [hser] at h
      cases h
      exact apiCall_count_field req resp ops.length ps

/-- Witness for C9: a successful concrete build (no app, no operations)
reports `count = 0`. -/
theorem c9_count_field_matches_input_witness :
    (jGet "gqlOperations".toList
        (toCamelV (apiCallJ w7_req w7_resp 0 []))).bind (jGet "count".toList) =
      some (.int 0) :=
  c9_count_field_matches_input w7_req w7_resp [] 100000
    (toCamelV (apiCallJ w7_req w7_resp 0 [])) (by rfl)

/-- The gate check never touches the buffer or the counters. -/
theorem active_webhooks_exists_counters (timeout : Nat) (st : ObsState) :
    (active_webhooks_exists timeout st).2.buffer = st.buffer ∧
    (active_webhooks_exists timeout st).2.builds = st.builds ∧
    (active_webhooks_exists timeout st).2.report_invocations =
      st.report_invocations := by
  unfold active_webhooks_exists get_observability_webhooks
  cases hlg : st.local_gate with
  | none => cases hsc : st.shared_cache <;> simp [hsc]
  | some p =>
    obtain ⟨b, t⟩ := p
    by_cases hf : st.now - t ≤ timeout
    · simp [hf]
    · cases hsc : st.shared_cache <;> simp [hf, hsc]

/-- With empty cached/registered endpoints the gate answers `false` and
leaves the state gate-empty. -/
theorem active_webhooks_exists_gateEmpty (timeout : Nat) (st : ObsState)
    (h : gateEmpty st) :
    (active_webhooks_exists timeout st).1 = false ∧
    gateEmpty (active_webhooks_exists timeout st).2 := by
  obtain ⟨hreg, hsc, hlg⟩ := h
  rcases hlgc : st.local_gate with _ | ⟨b, t⟩
  all_goals rcases hsc with hsc | hsc
  · have hred : active_webhooks_exists timeout st =
        (false, { st with shared_cache := some [], local_gate := some (false, st.now) }) := by
      unfold active_webhooks_exists get_observability_webhooks
      simp [hlgc, hsc, hreg]
    rw [hred]
    refine ⟨rfl, hreg, Or.inr rfl, ?_⟩
    intro b t hbt
    cases hbt
    rfl
  · have hred : active_webhooks_exists timeout st =
        (false, { st with local_gate := some (false, st.now) }) := by
      unfold active_webhooks_exists get_observability_webhooks
      simp [hlgc, hsc]
    rw [hred]
    refine ⟨rfl, hreg, Or.inr hsc, ?_⟩
    intro b t hbt
    cases hbt
    rfl
  · have hb : b = false := hlg b t hlgc
    subst hb
    by_cases hf : st.now - t ≤ timeout
    · have hred : active_webhooks_exists timeout st = (false, st) := by
        unfold active_webhooks_exists
        simp [hlgc, hf]
      rw [hred]
      exact ⟨rfl, hreg, Or.inl hsc, hlg⟩
    · have hred : active_webhooks_exists timeout st =
          (false, { st with shared_cache := some [], local_gate := some (false, st.now) }) := by
        unfold active_webhooks_exists get_observability_webhooks
        simp [hlgc, hsc, hreg, hf]
      rw [hred]
      refine ⟨rfl, hreg, Or.inr rfl, ?_⟩
      intro b t hbt
      cases hbt
      rfl
  · have hb : b = false := hlg b t hlgc
    subst hb
    by_cases hf : st.now - t ≤ timeout
    · have hred : active_webhooks_exists timeout st = (false, st) := by
        unfold active_webhooks_exists
        simp [hlgc, hf]
      rw [hred]
      exact ⟨rfl, hreg, Or.inr hsc, hlg⟩
    · have hred : active_webhooks_exists timeout st =
          (false, { st with local_gate := some (false, st.now) }) := by
        unfold active_webhooks_exists get_observability_webhooks
        simp [hlgc, hsc, hf]
      rw [hred]
      refine ⟨rfl, hreg, Or.inr hsc, ?_⟩
      intro b t hbt
      cases hbt
      rfl

/-- `ApiCall.report` against a gate-empty world: no build, no push, the
world stays gate-empty. -/
theorem ApiCall_report_gateEmpty (s : Settings) (ac : ApiCall) (st : ObsState)
    (h : gateEmpty st) :
    (ApiCall.report s ac st).2.buffer = st.buffer ∧
    (ApiCall.report s ac st).2.builds = st.builds ∧
    gateEmpty (ApiCall.report s ac st).2 := by
  have h1 : gateEmpty ({ st with
      report_invocations := st.report_invocations + 1 } : ObsState) := h
  unfold ApiCall.report
  split
  · exact ⟨rfl, rfl, h1⟩
  · split
    · exact ⟨rfl, rfl, h1⟩
    · cases hresp : ac.response with
      | none => exact ⟨rfl, rfl, h1⟩
      | some resp =>
        rcases hg : active_webhooks_exists CACHE_TIMEOUT
            ({ st with report_invocations := st.report_invocations + 1 }) with
          ⟨b, st2⟩
        have hfalse := active_webhooks_exists_gateEmpty CACHE_TIMEOUT _ h1
        have hcnt := active_webhooks_exists_counters CACHE_TIMEOUT
          ({ st with report_invocations := st.report_invocations + 1 })
        rw [hg] at hfalse hcnt
        simp only at hfalse hcnt
        obtain ⟨hb, hge⟩ := hfalse
        subst hb
        simp only [hg]
        exact ⟨hcnt.1, hcnt.2.1, hge⟩

/-- `report_event_delivery_attempt` against a gate-empty world: no build,
no push, the world stays gate-empty. -/
theorem report_event_delivery_attempt_gateEmpty (s : Settings)
    (sync_types : List (List Char)) (att : EventDeliveryAttemptModel)
    (next_retry : Option (List Char)) (st : ObsState) (h : gateEmpty st) :
    (report_event_delivery_attempt s sync_types att next_retry st).buffer =
      st.buffer ∧
    (report_event_delivery_attempt s sync_types att next_retry st).builds =
      st.builds ∧
    gateEmpty (report_event_delivery_attempt s sync_types att next_retry st) := by
  unfold report_event_delivery_attempt
  split
  · exact ⟨rfl, rfl, h⟩
  · rcases hg : active_webhooks_exists CACHE_TIMEOUT st with ⟨b, st2⟩
    have hfalse := active_webhooks_exists_gateEmpty CACHE_TIMEOUT st h
    have hcnt := active_webhooks_exists_counters CACHE_TIMEOUT st
    rw [hg] at hfalse hcnt
    simp only at hfalse hcnt
    obtain ⟨hb, hge⟩ := hfalse
    subst hb
    simp only [hg]
    exact ⟨hcnt.1, hcnt.2.1, hge⟩

/-- One report step against a gate-empty world. -/
theorem reportStep_gateEmpty (s : Settings) (st : ObsState) (ev : ReportEvent)
    (h : gateEmpty st) :
    (reportStep s st ev).buffer = st.buffer ∧
    (reportStep s st ev).builds = st.builds ∧
    gateEmpty (reportStep s st ev) := by
  cases ev with
  | api ac => exact ApiCall_report_gateEmpty s ac st h
  | attempt sync_types att next_retry =>
    exact report_event_delivery_attempt_gateEmpty s sync_types att next_retry st h

/-- C4: whenever the cached/registered endpoint list is empty, reporting
any number of events builds no payload and performs no buffer push. -/
theorem c4_gate_short_circuit (s : Settings) (events : List ReportEvent)
    (st : ObsState) (h : gateEmpty st) :
    (runReports s events st).buffer = st.buffer ∧
    (runReports s events st).builds = st.builds := by
  induction events generalizing st with
  | nil => exact ⟨rfl, rfl⟩
  | cons ev evs ih =>
    obtain ⟨hb, hc, hg⟩ := reportStep_gateEmpty s st ev h
    obtain ⟨ihb, ihc⟩ := ih (reportStep s st ev) hg
    exact ⟨by rw [runReports, ihb, hb], by rw [runReports, ihc, hc]⟩

/-! ### Scope lemmas for C5 -/

/-- While an API-call scope is open, every further entry reuses the stored
accumulator and is not owning. -/
theorem enterApiCallTimes_open (req : HttpRequestModel) :
    ∀ (n : Nat) (ctx : Ctx) (ac : ApiCall), ctx.api_call = some ac →
      enterApiCallTimes req n ctx = (List.replicate n (ac, false), ctx)
  | 0, ctx, ac, h => by simp [enterApiCallTimes]
  | n + 1, ctx, ac, h => by
    simp only [enterApiCallTimes, enterApiCall, h]
    rw [enterApiCallTimes_open req n ctx ac h]
    simp [List.replicate]

/-- Entering a closed API-call scope `n + 1` times creates one fresh
accumulator, owned by the outermost entry and reused by the rest. -/
theorem enterApiCallTimes_closed (req : HttpRequestModel) (n : Nat) (ctx : Ctx)
    (h : ctx.api_call = none) :
    enterApiCallTimes req (n + 1) ctx =
      (((⟨ctx.fresh, req, [], none, false⟩ : ApiCall), true) ::
        List.replicate n ((⟨ctx.fresh, req, [], none, false⟩ : ApiCall), false),
       { ctx with api_call := some ⟨ctx.fresh, req, [], none, false⟩,
                  fresh := ctx.fresh + 1 }) := by
  simp only [enterApiCallTimes, enterApiCall, h]
  rw [enterApiCallTimes_open req n _ _ (by rfl)]

/-- A non-owning exit is a no-op. -/
theorem exitApiCall_nonroot (s : Settings) (ctx : Ctx) (st : ObsState) :
    exitApiCall false s ctx st = (ctx, st) := rfl

/-- Exiting any number of non-owning entries changes nothing. -/
theorem exitApiCallAll_nonroot (s : Settings) :
    ∀ (n : Nat) (ac : ApiCall) (ctx : Ctx) (st : ObsState),
      exitApiCallAll s (List.replicate n (ac, false)) ctx st = (ctx, st)
  | 0, _, _, _ => rfl
  | n + 1, ac, ctx, st => by
    simp only [List.replicate, exitApiCallAll]
    rw [exitApiCallAll_nonroot s n ac ctx st]
    rfl

/-- The owning exit reports the stored accumulator and clears the slot. -/
theorem exitApiCall_root (s : Settings) (ctx : Ctx) (ac : ApiCall)
    (st : ObsState) (h : ctx.api_call = some ac) :
    exitApiCall true s ctx st =
      ({ ctx with api_call := none }, (ApiCall.report s ac st).2) := by
  simp [exitApiCall, h]

/-- Every invocation of `ApiCall.report` bumps the invocation counter by
exactly one, whatever it then does. -/
theorem ApiCall_report_invocations (s : Settings) (ac : ApiCall) (st : ObsState) :
    (ApiCall.report s ac st).2.report_invocations = st.report_invocations + 1 := by
  unfold ApiCall.report
  split
  · rfl
  · split
    · rfl
    · cases hresp : ac.response with
      | none => rfl
      | some resp =>
        rcases hg : active_webhooks_exists CACHE_TIMEOUT
            ({ st with report_invocations := st.report_invocations + 1 }) with
          ⟨b, st2⟩
        have hcnt := active_webhooks_exists_counters CACHE_TIMEOUT
          ({ st with report_invocations := st.report_invocations + 1 })
        rw [hg] at hcnt
        simp only [hg]
        cases b
        · exact hcnt.2.2
        · simp only [put_to_buffer]
          exact hcnt.2.2

/-- While a sub-operation scope is open, further entries reuse it. -/
theorem enterGqlTimes_open :
    ∀ (n : Nat) (ctx : Ctx) (g : GqlScopeAcc), ctx.gql_operation = some g →
      enterGqlTimes n ctx = (List.replicate n (g, false), ctx)
  | 0, ctx, g, h => by simp [enterGqlTimes]
  | n + 1, ctx, g, h => by
    simp only [enterGqlTimes, enterGqlOperation, h]
    rw [enterGqlTimes_open n ctx g h]
    simp [List.replicate]

/-- Entering a closed sub-operation scope `n + 1` times creates one fresh
accumulator, owned by the outermost entry and reused by the rest. -/
theorem enterGqlTimes_closed (n : Nat) (ctx : Ctx)
    (h : ctx.gql_operation = none) :
    enterGqlTimes (n + 1) ctx =
      (((⟨ctx.fresh, ⟨none, none, none, none, false⟩⟩ : GqlScopeAcc), true) ::
        List.replicate n
          ((⟨ctx.fresh, ⟨none, none, none, none, false⟩⟩ : GqlScopeAcc), false),
       { ctx with gql_operation := some ⟨ctx.fresh, ⟨none, none, none, none, false⟩⟩,
                  fresh := ctx.fresh + 1 }) := by
  simp only [enterGqlTimes, enterGqlOperation, h]
  rw [enterGqlTimes_open n _ _ (by rfl)]

/-- Exiting any number of non-owning sub-operation entries changes
nothing. -/
theorem exitGqlAll_nonroot :
    ∀ (n : Nat) (g : GqlScopeAcc) (ctx : Ctx),
      exitGqlAll (List.replicate n (g, false)) ctx = ctx
  | 0, _, _ => rfl
  | n + 1, g, ctx => by
    simp only [List.replicate, exitGqlAll]
    rw [exitGqlAll_nonroot n g ctx]
    rfl

/-- C5: two API-call scope entries at disjoint times produce distinct
accumulators; nested entries while a scope is open all yield the one
accumulator created by the outermost entry; across the nest the finalize
(`ApiCall.report`) runs exactly once, at the outermost exit, and
non-owning exits are no-ops; a sub-operation nest behaves the same way,
with the owning exit appending its accumulator to the open API call
exactly once. -/
theorem c5_reentrant_scopes (s : Settings) (req : HttpRequestModel)
    (ctx : Ctx) (st : ObsState) (n m : Nat) (ac0 : ApiCall)
    (hnone : ctx.api_call = none) :
    (enterApiCallTimes req (n + 1) ctx).1 =
      (((⟨ctx.fresh, req, [], none, false⟩ : ApiCall), true) ::
        List.replicate n ((⟨ctx.fresh, req, [], none, false⟩ : ApiCall), false)) ∧
    ((exitApiCallAll s (enterApiCallTimes req (n + 1) ctx).1
        (enterApiCallTimes req (n + 1) ctx).2 st).1.api_call = none ∧
     (exitApiCallAll s (enterApiCallTimes req (n + 1) ctx).1
        (enterApiCallTimes req (n + 1) ctx).2 st).2.report_invocations =
       st.report_invocations + 1) ∧
    (∀ ctx' st', exitApiCall false s ctx' st' = (ctx', st')) ∧
    ((enterApiCall req (exitApiCallAll s (enterApiCallTimes req (n + 1) ctx).1
        (enterApiCallTimes req (n + 1) ctx).2 st).1).1.oid ≠
      (⟨ctx.fresh, req, [], none, false⟩ : ApiCall).oid) ∧
    (∀ ctxo : Ctx, ctxo.api_call = some ac0 → ctxo.gql_operation = none →
      (enterGqlTimes (m + 1) ctxo).1 =
        (((⟨ctxo.fresh, ⟨none, none, none, none, false⟩⟩ : GqlScopeAcc), true) ::
          List.replicate m
            ((⟨ctxo.fresh, ⟨none, none, none, none, false⟩⟩ : GqlScopeAcc), false)) ∧
      (exitGqlAll (enterGqlTimes (m + 1) ctxo).1
          (enterGqlTimes (m + 1) ctxo).2).api_call =
        some ({ ac0 with gql_operations := ac0.gql_operations ++
          [(⟨none, none, none, none, false⟩ : GraphQLOperationResponse)] }) ∧
      (exitGqlAll (enterGqlTimes (m + 1) ctxo).1
          (enterGqlTimes (m + 1) ctxo).2).gql_operation = none) := by
  rw [enterApiCallTimes_closed req n ctx hnone]
  refine ⟨rfl, ?_, fun ctx' st' => rfl, ?_, ?_⟩
  · rw [exitApiCallAll, exitApiCallAll_nonroot s n _ _ st,
      exitApiCall_root s _ _ st (by rfl)]
    exact ⟨rfl, ApiCall_report_invocations s _ st⟩
  · rw [exitApiCallAll, exitApiCallAll_nonroot s n _ _ st,
      exitApiCall_root s _ _ st (by rfl)]
    simp [enterApiCall]
  · intro ctxo hac hgn
    rw [enterGqlTimes_closed m ctxo hgn]
    refine ⟨rfl, ?_, ?_⟩
    · rw [exitGqlAll, exitGqlAll_nonroot m _ _]
      simp [exitGqlOperation, hac]
    · rw [exitGqlAll, exitGqlAll_nonroot m _ _]
      simp [exitGqlOperation, hac]

/-- Witness for C5: a depth-2 nest over an empty context reports exactly
once, and the paired sub-operation nest appends exactly once. -/
theorem c5_reentrant_scopes_witness :
    (exitApiCallAll ⟨true, true, 100000⟩
        (enterApiCallTimes w7_req 2 ⟨none, none, 0⟩).1
        (enterApiCallTimes w7_req 2 ⟨none, none, 0⟩).2 w4_st).2.report_invocations =
      w4_st.report_invocations + 1 :=
  (c5_reentrant_scopes ⟨true, true, 100000⟩ w7_req ⟨none, none, 0⟩ w4_st 1 1
    w4_ac rfl).2.1.2

/-- Witness for C4: two events (an API call with a response attached and a
delivery attempt) against an empty endpoint world leave the buffer and the
build counter untouched. -/
theorem c4_gate_short_circuit_witness :
    (runReports ⟨true, true, 100000⟩
        [.api w4_ac, .attempt [] w6_attempt none] w4_st).buffer = w4_st.buffer ∧
    (runReports ⟨true, true, 100000⟩
        [.api w4_ac, .attempt [] w6_attempt none] w4_st).builds = w4_st.builds :=
  c4_gate_short_circuit ⟨true, true, 100000⟩ [.api w4_ac, .attempt [] w6_attempt none]
    w4_st ⟨rfl, Or.inl rfl, by intro b t hbt; cases hbt⟩

/-- C8 — counterexample: the claim that the gate-check/build/push sequence
runs only when a linked delivery is present is false.  The Python function
logs the missing delivery but does not return, so with active
instrumentation and a positive gate the payload build still runs (the
`builds` counter grows) — only the push is absent, because the builder's
data-integrity error is swallowed by `put_to_buffer`. -/
theorem c8_sequence_counterexample :
    w8_att.delivery = none ∧
    (report_event_delivery_attempt w8_s [] w8_att none w8_st).builds =
      w8_st.builds + 1 ∧
    (report_event_delivery_attempt w8_s [] w8_att none w8_st).buffer =
      w8_st.buffer :=
  ⟨rfl, rfl, rfl⟩

/-- C8 (amended): reporting an attempt without a linked delivery logs the
drop and never raises or pushes — the gate-check and a payload-build
attempt still run, but the build fails on the missing delivery and the
error is swallowed, so the buffer is untouched; with a linked delivery
(and an active gate and a successful build) the push happens. -/
theorem c8_missing_delivery_no_push (s : Settings)
    (sync_types : List (List Char)) (att : EventDeliveryAttemptModel)
    (next_retry : Option (List Char)) (st : ObsState) :
    (att.delivery = none →
      (report_event_delivery_attempt s sync_types att next_retry st).buffer =
        st.buffer) ∧
    (∀ t doc, s.observability_active = true →
      st.local_gate = some (true, t) → st.now - t ≤ CACHE_TIMEOUT →
      generate_event_delivery_attempt_payload sync_types att next_retry
        s.max_payload_size = .ok doc →
      (report_event_delivery_attempt s sync_types att next_retry st).buffer =
        st.buffer ++ [doc]) := by
  constructor
  · intro hdel
    unfold report_event_delivery_attempt
    split
    · rfl
    · rcases hg : active_webhooks_exists CACHE_TIMEOUT st with ⟨b, st2⟩
      have hcnt := active_webhooks_exists_counters CACHE_TIMEOUT st
      rw [hg] at hcnt
      simp only [hg]
      cases b
      · exact hcnt.1
      · have hgen : generate_event_delivery_attempt_payload sync_types att
            next_retry s.max_payload_size = .error .data_integrity := by
          simp [generate_event_delivery_attempt_payload, hdel]
        simp only [put_to_buffer, hgen]
        exact hcnt.1
  · intro t doc hact hlg hfr hgen
    unfold report_event_delivery_attempt
    rw [if_neg (by simp [hact])]
    have hg : active_webhooks_exists CACHE_TIMEOUT st = (true, st) := by
      unfold active_webhooks_exists
      simp [hlg, hfr]
    rw [hg]
    simp [put_to_buffer, hgen]

/-- Witness for C8 (amended): on the concrete delivery-less attempt, the
buffer is unchanged. -/
theorem c8_missing_delivery_no_push_witness :
    (report_event_delivery_attempt w8_s [] w8_att none w8_st).buffer =
      w8_st.buffer :=
  (c8_missing_delivery_no_push w8_s [] w8_att none w8_st).1 rfl

/-- C10: a finalize that returns early because no response was attached
leaves the accumulator unmarked and the world unchanged (apart from the
invocation count); once a response is attached, a later finalize performs
the gate-check, build and push, and a further finalize is a no-op — one
push in total. -/
theorem c10_unconsumed_finalize (s : Settings) (ac : ApiCall) (st : ObsState)
    (resp : HttpResponseModel) (doc : JValue) (t : Nat)
    (hact : s.observability_active = true)
    (happ : s.report_all_api_calls = true ∨ ac.request.app.isSome = true)
    (hrep : ac.reported = false)
    (hresp : ac.response = none)
    (hgate : st.local_gate = some (true, t))
    (hfresh : st.now - t ≤ CACHE_TIMEOUT)
    (hgen : generate_api_call_payload ac.request resp ac.gql_operations
      s.max_payload_size = .ok doc) :
    (ApiCall.report s ac st).1 = ac ∧
    (ApiCall.report s ac st).2.buffer = st.buffer ∧
    (ApiCall.report s ac st).2.builds = st.builds ∧
    (ApiCall.report s ({ ac with response := some resp })
        (ApiCall.report s ac st).2).1.reported = true ∧
    (ApiCall.report s ({ ac with response := some resp })
        (ApiCall.report s ac st).2).2.buffer = st.buffer ++ [doc] ∧
    (ApiCall.report s ({ ac with response := some resp })
        (ApiCall.report s ac st).2).2.builds = st.builds + 1 ∧
    (ApiCall.report s
        (ApiCall.report s ({ ac with response := some resp })
          (ApiCall.report s ac st).2).1
        (ApiCall.report s ({ ac with response := some resp })
          (ApiCall.report s ac st).2).2).2.buffer = st.buffer ++ [doc] ∧
    (ApiCall.report s
        (ApiCall.report s ({ ac with response := some resp })
          (ApiCall.report s ac st).2).1
        (ApiCall.report s ({ ac with response := some resp })
          (ApiCall.report s ac st).2).2).2.builds = st.builds + 1 := by
  have hcond2 : (!s.report_all_api_calls && ac.request.app.isNone) = false := by
    rcases happ with h | h
    · simp [h]
    · rcases Option.isSome_iff_exists.1 h with ⟨a, ha⟩
      simp [ha]
  have h1 : ApiCall.report s ac st =
      (ac, { st with report_invocations := st.report_invocations + 1 }) := by
    unfold ApiCall.report
    simp [hrep, hact, hcond2, hresp]
  have hg2 : active_webhooks_exists CACHE_TIMEOUT
      ({ st with report_invocations := st.report_invocations + 2 }) =
      (true, { st with report_invocations := st.report_invocations + 2 }) := by
    unfold active_webhooks_exists
    simp [hgate, hfresh]
  have h2 : ApiCall.report s ({ ac with response := some resp })
      ({ st with report_invocations := st.report_invocations + 1 }) =
      ({ ac with response := some resp, reported := true },
       { st with report_invocations := st.report_invocations + 2,
                 builds := st.builds + 1,
                 buffer := st.buffer ++ [doc] }) := by
    unfold ApiCall.report
    simp only [hrep, hact, hcond2]
    simp only [show st.report_invocations + 1 + 1 = st.report_invocations + 2
      from rfl]
    simp [hg2, put_to_buffer, hgen]
  have h3 : ∀ st' : ObsState, ApiCall.report s
      ({ ac with response := some resp, reported := true }) st' =
      ({ ac with response := some resp, reported := true },
       { st' with report_invocations := st'.report_invocations + 1 }) := by
    intro st'
    unfold ApiCall.report
    simp
  rw [h1]
  simp [h2, h3]

/-- Witness for C10: on a concrete accumulator, the dropped first finalize
followed by a finalize with a response pushes the document. -/
theorem c10_unconsumed_finalize_witness :
    (ApiCall.report w8_s ({ w10_ac with response := some w7_resp })
        (ApiCall.report w8_s w10_ac w8_st).2).2.buffer =
      w8_st.buffer ++ [toCamelV (apiCallJ w7_req w7_resp 0 [])] :=
  (c10_unconsumed_finalize w8_s w10_ac w8_st w7_resp
      (toCamelV (apiCallJ w7_req w7_resp 0 [])) 0 rfl (Or.inl rfl) rfl rfl rfl
      (by decide) (by rfl)).2.2.2.2.1

end Observability
